import Mathlib

/-!
Verification of the zero-downtime schema migration manager
(`db/migration_manager.py`, class `ZeroDowntimeMigrationManager`).

The Python module is shallowly embedded as executable Lean functions.
External effects (the relational database, the Redis coordination store,
the filesystem and the logger) are made explicit:

* the ledger table `schema_migrations` is a list of `LedgerRow` values;
* the single Redis lock key `spr:migrations:lock` is an `Option String`
  (the stored owner token, or `none` when the key is absent);
* every observable side effect of a call is recorded, in program order,
  in a `List Event` returned alongside the result;
* statements that may raise at the database (psycopg2 errors) are
  resolved by explicit success oracles (`execOk`, `rbOk`, `dlOk`),
  one per fallible statement, exactly at the code points that are
  wrapped in `try`/`except`;
* wall-clock durations (`time.time()` arithmetic) are not modelled:
  the `duration` field of `MigrationResult` is dropped.
-/

/-- Decidable equality for `Except`, needed to evaluate outcomes on
concrete inputs. -/
instance instDecEqExcept {ε α : Type} [DecidableEq ε] [DecidableEq α] :
    DecidableEq (Except ε α)
  | Except.ok a, Except.ok b =>
    if h : a = b then isTrue (by rw [h])
    else isFalse (fun hc => h (Except.ok.inj hc))
  | Except.ok _, Except.error _ => isFalse (fun hc => Except.noConfusion hc)
  | Except.error _, Except.ok _ => isFalse (fun hc => Except.noConfusion hc)
  | Except.error a, Except.error b =>
    if h : a = b then isTrue (by rw [h])
    else isFalse (fun hc => h (Except.error.inj hc))

/-- Migration definition (`@dataclass Migration`).  `dependencies = None`
is normalised to `[]` by `__post_init__`, so the field is a plain list. -/
structure Migration where
  id : String
  name : String
  version : String
  sql_content : String
  rollback_sql : Option String
  is_breaking : Bool
  requires_maintenance : Bool
  estimated_duration : Nat
  dependencies : List String
deriving Repr, DecidableEq

/-- Migration execution result (`@dataclass MigrationResult`), without the
wall-clock `duration` field. -/
structure MigrationResult where
  migration_id : String
  success : Bool
  error_message : Option String
  affected_rows : Nat
  rollback_executed : Bool
deriving Repr, DecidableEq

/-- One row of the `schema_migrations` ledger table, as written by
`_record_migration` (the `applied_at` timestamp and the JSON metadata
blob are not modelled; no claim depends on them). -/
structure LedgerRow where
  id : String
  name : String
  version : String
  checksum : String
  rollback_sql : Option String
  is_breaking : Bool
deriving Repr, DecidableEq

/-- Observable side effects of the manager, in program order.
`ledgerRead` is a SELECT over `schema_migrations`; `ledgerWrite` is the
INSERT of `_record_migration`; `ledgerDelete` is the DELETE of a ledger
row during rollback; `execSQL` is the execution of migration-supplied SQL
text; `commit` and `txRollback` are transaction boundary operations;
`lockAcquire`, `lockAcquireFail` and `lockDelete` are the Redis SET NX,
its failure, and the DEL of the lock key; `statusApplying`,
`statusFailed` and `statusClear` are the Redis status-hash updates;
`redisSet` is any other Redis SET; `wouldApply` is the dry-run report
line; `logWarning` and `logError` are logger calls at those levels. -/
inductive Event where
  | lockAcquire
  | lockAcquireFail
  | lockDelete
  | ledgerRead
  | ledgerWrite (id : String)
  | ledgerDelete (id : String)
  | execSQL (stmt : String)
  | commit
  | txRollback
  | ensureTable
  | statusApplying (id : String)
  | statusFailed (id : String)
  | statusClear
  | redisSet (key : String)
  | wouldApply (id : String)
  | logWarning (msg : String)
  | logError (msg : String)
deriving Repr, DecidableEq

/-- Strategy name strings, the keys of `self.strategies`. -/
def onlineName : String := "online"

/-- Strategy name `shadow_table`. -/
def shadowName : String := "shadow_table"

/-- Strategy name `dual_write`. -/
def dualName : String := "dual_write"

/-- Strategy name `maintenance`. -/
def maintenanceName : String := "maintenance"

/-- The four registered strategy keys, in registration order. -/
def strategyNames : List String := [onlineName, shadowName, dualName, maintenanceName]

/-- Redis key set by the maintenance strategy. -/
def maintenanceKey : String := "spr:maintenance:required"

/-- Error message of `raise ValueError from apply_migrations` on an
unknown strategy key. -/
def unknownStrategyMsg : String := "Unknown migration strategy"

/-- Error message of the exception raised when the lock is already held. -/
def lockHeldMsg : String := "Migration lock is held"

/-- Error message of `raise ValueError` when rolling back an id that has
no ledger row. -/
def notAppliedMsg (id : String) : String :=
  "Migration " ++ id ++ " was not applied"

/-- Message of the exception raised (and caught) when the ledger row
carries no rollback SQL. -/
def noRollbackMsg (id : String) : String :=
  "No rollback SQL available for migration " ++ id

/-- Stand-in for `str(e)` of a database error propagated into a failed
result; the concrete text comes from the database driver. -/
def execFailedMsg : String := "execution failed"

/-- Warning logged by `load_migrations` when the migrations directory
does not exist. -/
def missingDirMsg : String := "Migrations directory does not exist"

/-- Membership test against the ledger: `migration_id in applied_migrations`
for the dict built by `get_applied_migrations` (keyed by row id). -/
def isApplied (ledger : List LedgerRow) (id : String) : Bool :=
  ledger.any (fun row => row.id == id)

/-- Checksum of migration content (`_calculate_migration_checksum`:
`sha256(sql_content + (rollback_sql or ""))`).  The SHA-256 digest is
abstracted by its preimage text: no claim depends on the digest value,
only on which text it covers. -/
def calculateMigrationChecksum (m : Migration) : String :=
  m.sql_content ++ m.rollback_sql.getD ""

/-- The ledger row inserted by `_record_migration` for a migration:
id, name, version, checksum, the migration's rollback SQL, is_breaking. -/
def recordRow (m : Migration) : LedgerRow :=
  { id := m.id
    name := m.name
    version := m.version
    checksum := calculateMigrationChecksum m
    rollback_sql := m.rollback_sql
    is_breaking := m.is_breaking }

/-- Pending resolver (`get_pending_migrations`): keep each loaded
definition whose id is not a ledger key and all of whose declared
dependency ids are ledger keys, in source order (the Python loop appends
in iteration order, i.e. it is a filter). -/
def getPendingMigrations (allMigs : List Migration) (ledger : List LedgerRow) :
    List Migration :=
  allMigs.filter fun m =>
    !(isApplied ledger m.id) && m.dependencies.all (fun d => isApplied ledger d)

/-- Successful `MigrationResult` as built by the strategy executors
(`affected_rows` via `cursor.rowcount` is environment-dependent and
modelled as 0). -/
def successResult (m : Migration) : MigrationResult :=
  { migration_id := m.id
    success := true
    error_message := none
    affected_rows := 0
    rollback_executed := false }

/-- Failed `MigrationResult` as built in a strategy's `except` branch. -/
def failureResult (m : Migration) : MigrationResult :=
  { migration_id := m.id
    success := false
    error_message := some execFailedMsg
    affected_rows := 0
    rollback_executed := false }

/-- Substring test, Python's `sub in s` for a non-empty `sub`. -/
def containsSub (s sub : String) : Bool :=
  (s.splitOn sub).length > 1

/-- Keyword rewritten by the shadow-table strategy. -/
def createTableKw : String := "CREATE TABLE"

/-- Replacement used by the shadow-table strategy. -/
def shadowCreateKw : String := "CREATE TABLE shadow_"

/-- Keyword tested (upper-cased) by the shadow-table strategy. -/
def alterTableKw : String := "ALTER TABLE"

/-- Python `str.strip(';')`: remove leading and trailing semicolons. -/
def stripSemis (s : String) : String :=
  String.mk
    (((s.toList.dropWhile (fun c => c == ';')).reverse.dropWhile
      (fun c => c == ';')).reverse)

/-- Table-name extraction of `_extract_table_name`: split on whitespace,
find the first word whose upper-case form is TABLE, return the following
word with semicolons stripped, else the string `unknown`. -/
def extractTableName (sqlText : String) : String :=
  let words := (sqlText.split Char.isWhitespace).filter (fun w => w ≠ "")
  match words.findIdx? (fun w => w.toUpper == "TABLE") with
  | some i =>
    match words.get? (i + 1) with
    | some w => stripSemis w
    | none => "unknown"
  | none => "unknown"

/-- SQL text issued by the shadow-table data copy. -/
def insertShadowStmt (t : String) : String :=
  "INSERT INTO shadow_" ++ t ++ " SELECT * FROM " ++ t

/-- Literal BEGIN issued during the shadow-table atomic swap. -/
def beginStmt : String := "BEGIN"

/-- DROP statement of the shadow-table atomic swap. -/
def dropStmt (t : String) : String := "DROP TABLE " ++ t

/-- RENAME statement of the shadow-table atomic swap. -/
def renameStmt (t : String) : String :=
  "ALTER TABLE shadow_" ++ t ++ " RENAME TO " ++ t

/-- Literal COMMIT issued during the shadow-table atomic swap. -/
def commitStmt : String := "COMMIT"

/-- Online strategy (`_execute_online_migration`): execute the forward
SQL (the UPDATE/DELETE branch routes through `_execute_chunked_operation`,
which executes the very same statement once, so both branches produce the
same effect trace), commit, then `_record_migration` and commit again.
On a database error the `except` branch yields a failed result and no
ledger write.  `execOk` resolves whether the forward execution raises. -/
def executeOnlineMigration (execOk : Migration → Bool) (m : Migration)
    (ledger : List LedgerRow) :
    MigrationResult × List LedgerRow × List Event :=
  if execOk m then
    (successResult m, ledger ++ [recordRow m],
      [Event.execSQL m.sql_content, Event.commit,
       Event.ledgerWrite m.id, Event.commit])
  else
    (failureResult m, ledger, [Event.execSQL m.sql_content])

/-- Shadow-table strategy (`_execute_shadow_table_migration`): execute the
forward SQL with `CREATE TABLE` rewritten to `CREATE TABLE shadow_`; if the
original text contains `ALTER TABLE` (upper-cased test), bulk-copy into the
shadow table and atomically swap; then commit, record the migration, and
commit.  `execOk` resolves whether the strategy body raises. -/
def executeShadowTableMigration (execOk : Migration → Bool) (m : Migration)
    (ledger : List LedgerRow) :
    MigrationResult × List LedgerRow × List Event :=
  let shadowSql := m.sql_content.replace createTableKw shadowCreateKw
  if execOk m then
    let alterEvs :=
      if containsSub m.sql_content.toUpper alterTableKw then
        let t := extractTableName m.sql_content
        [Event.execSQL (insertShadowStmt t), Event.execSQL beginStmt,
         Event.execSQL (dropStmt t), Event.execSQL (renameStmt t),
         Event.execSQL commitStmt]
      else []
    (successResult m, ledger ++ [recordRow m],
      Event.execSQL shadowSql :: alterEvs
        ++ [Event.commit, Event.ledgerWrite m.id, Event.commit])
  else
    (failureResult m, ledger, [Event.execSQL shadowSql])

/-- Dual-write strategy (`_execute_dual_write_migration`): delegates to
the online strategy. -/
def executeDualWriteMigration (execOk : Migration → Bool) (m : Migration)
    (ledger : List LedgerRow) :
    MigrationResult × List LedgerRow × List Event :=
  executeOnlineMigration execOk m ledger

/-- Maintenance strategy (`_execute_maintenance_migration`): set the
maintenance-required Redis key, then delegate to the online strategy. -/
def executeMaintenanceMigration (execOk : Migration → Bool) (m : Migration)
    (ledger : List LedgerRow) :
    MigrationResult × List LedgerRow × List Event :=
  let inner := executeOnlineMigration execOk m ledger
  (inner.1, inner.2.1, Event.redisSet maintenanceKey :: inner.2.2)

/-- Strategy dispatch, `self.strategies[strategy]`.  `apply_migrations`
rejects unknown keys before dispatching, so the final branch is only
reached for `maintenance`. -/
def executeStrategy (strat : String) (execOk : Migration → Bool)
    (m : Migration) (ledger : List LedgerRow) :
    MigrationResult × List LedgerRow × List Event :=
  if strat = onlineName then executeOnlineMigration execOk m ledger
  else if strat = shadowName then executeShadowTableMigration execOk m ledger
  else if strat = dualName then executeDualWriteMigration execOk m ledger
  else executeMaintenanceMigration execOk m ledger

/-- Outcome of one `apply_migrations` call: the returned list (or the
raised exception's message), the final ledger, the final lock key value,
and the effect trace. -/
structure ApplyOutcome where
  results : Except String (List MigrationResult)
  ledger : List LedgerRow
  lockStore : Option String
  events : List Event
deriving Repr, DecidableEq

/-- The `for migration in pending_migrations` loop of `apply_migrations`:
publish the status snapshot, run the strategy, append its result; on the
first failed result publish the failed status and break. -/
def applyLoop (strat : String) (execOk : Migration → Bool) :
    List Migration → List LedgerRow →
    List MigrationResult × List LedgerRow × List Event
  | [], ledger => ([], ledger, [])
  | m :: rest, ledger =>
    let step := executeStrategy strat execOk m ledger
    if step.1.success then
      let cont := applyLoop strat execOk rest step.2.1
      (step.1 :: cont.1, cont.2.1,
        Event.statusApplying m.id :: step.2.2 ++ cont.2.2)
    else
      ([step.1], step.2.1,
        Event.statusApplying m.id :: step.2.2 ++ [Event.statusFailed m.id])

/-- The `apply_migrations` entry point.  In order: reject unknown
strategy keys; resolve the pending set (one ledger read); return `[]` at
once when it is empty; on `dry_run` report each pending migration and
return `[]`; otherwise acquire the lock (failing fast when the key is
held), ensure the ledger table, run the loop, clear the status snapshot
and release the lock on the way out. -/
def applyMigrations (allMigs : List Migration) (ledger : List LedgerRow)
    (lockStore : Option String) (lockValue : String) (strat : String)
    (dryRun : Bool) (execOk : Migration → Bool) : ApplyOutcome :=
  if strat ∈ strategyNames then
    let pending := getPendingMigrations allMigs ledger
    if pending.isEmpty then
      { results := Except.ok []
        ledger := ledger
        lockStore := lockStore
        events := [Event.ledgerRead] }
    else if dryRun then
      { results := Except.ok []
        ledger := ledger
        lockStore := lockStore
        events := Event.ledgerRead :: pending.map (fun m => Event.wouldApply m.id) }
    else
      match lockStore with
      | some _ =>
        { results := Except.error lockHeldMsg
          ledger := ledger
          lockStore := lockStore
          events := [Event.ledgerRead, Event.lockAcquireFail] }
      | none =>
        let run := applyLoop strat execOk pending ledger
        { results := Except.ok run.1
          ledger := run.2.1
          lockStore := none
          events := Event.ledgerRead :: Event.lockAcquire :: Event.ensureTable
              :: run.2.2 ++ [Event.statusClear, Event.lockDelete] }
  else
    { results := Except.error unknownStrategyMsg
      ledger := ledger
      lockStore := lockStore
      events := [] }

/-- Outcome of one `rollback_migration` call. -/
structure RollbackOutcome where
  res : Except String MigrationResult
  ledger : List LedgerRow
  lockStore : Option String
  events : List Event
deriving Repr, DecidableEq

/-- The `MigrationResult` returned when the ledger row has no usable
rollback SQL: the raised exception is caught by the surrounding
`except`, which sets `success = False` and `rollback_executed = True`. -/
def noRollbackResult (id : String) : MigrationResult :=
  { migration_id := id
    success := false
    error_message := some (noRollbackMsg id)
    affected_rows := 0
    rollback_executed := true }

/-- The `MigrationResult` returned when the rollback transaction raises. -/
def failedRollbackResult (id : String) : MigrationResult :=
  { migration_id := id
    success := false
    error_message := some execFailedMsg
    affected_rows := 0
    rollback_executed := true }

/-- The `MigrationResult` of a successful rollback. -/
def okRollbackResult (id : String) : MigrationResult :=
  { migration_id := id
    success := true
    error_message := none
    affected_rows := 0
    rollback_executed := true }

/-- The `rollback_migration` entry point.  It acquires the lock first
(the whole body sits inside `async with self.migration_lock(...)`), then
reads the ledger and raises `ValueError` when the id has no row; inside
the `try` it re-reads the row's rollback SQL and raises (caught below)
when the SQL is `NULL` or empty; otherwise it executes the stored
rollback SQL and deletes the ledger row in one transaction.  A database
error rolls the transaction back and is returned as a failed result with
`rollback_executed = True`.  The lock is released on every path that
acquired it.  `rbOk` resolves whether the stored rollback SQL executes
without error, `dlOk` whether the ledger-row DELETE does. -/
def rollbackMigration (ledger : List LedgerRow) (lockStore : Option String)
    (lockValue : String) (rbOk dlOk : Bool) (id : String) : RollbackOutcome :=
  match lockStore with
  | some _ =>
    { res := Except.error lockHeldMsg
      ledger := ledger
      lockStore := lockStore
      events := [Event.lockAcquireFail] }
  | none =>
    match ledger.find? (fun row => row.id == id) with
    | none =>
      { res := Except.error (notAppliedMsg id)
        ledger := ledger
        lockStore := none
        events := [Event.lockAcquire, Event.ledgerRead, Event.lockDelete] }
    | some row =>
      match row.rollback_sql with
      | none =>
        { res := Except.ok (noRollbackResult id)
          ledger := ledger
          lockStore := none
          events := [Event.lockAcquire, Event.ledgerRead, Event.ledgerRead,
            Event.lockDelete] }
      | some r =>
        if r = "" then
          { res := Except.ok (noRollbackResult id)
            ledger := ledger
            lockStore := none
            events := [Event.lockAcquire, Event.ledgerRead, Event.ledgerRead,
              Event.lockDelete] }
        else if rbOk then
          if dlOk then
            { res := Except.ok (okRollbackResult id)
              ledger := ledger.filter (fun row2 => !(row2.id == id))
              lockStore := none
              events := [Event.lockAcquire, Event.ledgerRead, Event.ledgerRead,
                Event.execSQL r, Event.ledgerDelete id, Event.commit,
                Event.lockDelete] }
          else
            { res := Except.ok (failedRollbackResult id)
              ledger := ledger
              lockStore := none
              events := [Event.lockAcquire, Event.ledgerRead, Event.ledgerRead,
                Event.execSQL r, Event.ledgerDelete id, Event.txRollback,
                Event.lockDelete] }
        else
          { res := Except.ok (failedRollbackResult id)
            ledger := ledger
            lockStore := none
            events := [Event.lockAcquire, Event.ledgerRead, Event.ledgerRead,
              Event.execSQL r, Event.txRollback, Event.lockDelete] }

/-- The distributed lock context manager `migration_lock`, run around an
arbitrary body.  `store0` is the lock key's value when the call starts.
SET NX succeeds exactly when the key is absent; on failure the held-lock
exception is raised and the `finally` block releases nothing.  The store
may change while the body runs (TTL expiry, re-acquisition by another
owner): `duringBody` maps the store value at acquisition to its value
when the `finally` block reads it back; the key is deleted only when
that read returns exactly the owner token.  Returns the final store
value and the trace. -/
def migrationLock (store0 : Option String) (lockValue : String)
    (duringBody : Option String → Option String) :
    Option String × List Event :=
  match store0 with
  | some _ => (store0, [Event.lockAcquireFail])
  | none =>
    let after := duringBody (some lockValue)
    if after = some lockValue then
      (none, [Event.lockAcquire, Event.lockDelete])
    else
      (after, [Event.lockAcquire])

/-- A migration source unit: the filename stem (which becomes the
migration id) and the result of `read_text()`.  A per-unit load failure
(an unreadable file, or a metadata line whose JSON value is not an
object) is modelled by the `Except.error` case of `readText`. -/
structure MigrationFile where
  stem : String
  readText : Except String String
deriving Repr, DecidableEq

/-- The delimiter separating forward from rollback SQL. -/
def rollbackDelim : String := "-- ROLLBACK:"

/-- Default version of a migration without a version directive. -/
def defaultVersion : String := "1.0.0"

/-- Parse one migration unit (`_parse_migration_file`): read the text,
split it on the rollback delimiter, take the trimmed first part as the
forward SQL and the trimmed second part (when present) as the rollback
SQL.  The metadata directives extracted by `_extract_migration_metadata`
(JSON after a META comment, decode errors skipped per line) only supply
the name/version/flag fields and no claim depends on the extracted
values, so the model takes the default path of each `metadata.get`. -/
def parseMigrationFile (f : MigrationFile) : Except String Migration :=
  match f.readText with
  | Except.error e => Except.error e
  | Except.ok content =>
    let sqlParts := content.splitOn rollbackDelim
    let mainSql := (sqlParts.headD content).trim
    let rollbackSql :=
      match sqlParts with
      | _ :: second :: _ => some second.trim
      | _ => none
    Except.ok
      { id := f.stem
        name := f.stem
        version := defaultVersion
        sql_content := mainSql
        rollback_sql := rollbackSql
        is_breaking := false
        requires_maintenance := false
        estimated_duration := 0
        dependencies := [] }

/-- The `for migration_file in sorted(...)` loop of `load_migrations`:
each unit that parses is appended; each unit whose load raises is
skipped with an error-level log line, and the loop continues. -/
def loadLoop : List MigrationFile → List Migration × List Event
  | [] => ([], [])
  | f :: rest =>
    match parseMigrationFile f with
    | Except.ok m =>
      let r := loadLoop rest
      (m :: r.1, r.2)
    | Except.error _ =>
      let r := loadLoop rest
      (r.1, Event.logError f.stem :: r.2)

/-- The `load_migrations` entry point.  `none` models a missing
migrations directory (warning, empty list); `some files` models an
existing directory whose unit listing — `sorted(glob("*.sql"))`, i.e.
lexicographically ordered — is `files`. -/
def loadMigrations (dir : Option (List MigrationFile)) :
    List Migration × List Event :=
  match dir with
  | none => ([], [Event.logWarning missingDirMsg])
  | some files => loadLoop files

/-- Statements executed as SQL text, in order, within a trace. -/
def execedStmts (evs : List Event) : List String :=
  evs.filterMap fun e =>
    match e with
    | Event.execSQL s => some s
    | _ => none

/-- Dry-run report lines within a trace. -/
def wouldApplyId (e : Event) : Option String :=
  match e with
  | Event.wouldApply i => some i
  | _ => none

/-- Events that change the database, the coordination store, or touch
the lock; reads and log lines are not state changes. -/
def mutatesState (e : Event) : Bool :=
  match e with
  | Event.ledgerRead => false
  | Event.wouldApply _ => false
  | Event.logWarning _ => false
  | Event.logError _ => false
  | _ => true

/-- Ordering discipline of a strategy trace: wherever a ledger row is
written, some commit occurs strictly earlier in the trace, and some SQL
execution occurs strictly before that commit — the recorded migration's
forward work was committed before the ledger ever saw it. -/
def writeAfterCommittedExec (evs : List Event) : Prop :=
  ∀ (k : Nat) (i : String), evs[k]? = some (Event.ledgerWrite i) →
    ∃ j : Nat, j < k ∧ evs[j]? = some Event.commit ∧
      ∃ (l : Nat) (s : String), l < j ∧ evs[l]? = some (Event.execSQL s)

/-- Python falsiness of the fetched `rollback_sql` column: the rollback
precondition fails when the column is NULL or the empty string
(`if not result or not result[0]`). -/
def emptyRollback (o : Option String) : Bool :=
  match o with
  | none => true
  | some s => s == ""

/-- Whether a trace contains a warning-level log line. -/
def hasWarning (evs : List Event) : Bool :=
  evs.any fun e =>
    match e with
    | Event.logWarning _ => true
    | _ => false

/-- Apply a single migration (online strategy, empty ledger, no lock
holder), then roll it back: the scenario of the rollback-fidelity
property. -/
def applyThenRollback (m : Migration) (tok tok2 : String)
    (execOk : Migration → Bool) : RollbackOutcome :=
  rollbackMigration
    (applyMigrations [m] [] none tok onlineName false execOk).ledger
    none tok2 true true m.id

/-- Forward SQL of the concrete migration `migA`. -/
def sqlA : String := "CREATE TABLE t(id INT)"

/-- Rollback SQL of the concrete migration `migA`. -/
def rbA : String := "DROP TABLE t"

/-- Forward SQL of the concrete migration `migB`. -/
def sqlB : String := "ALTER TABLE t ADD COLUMN v INT"

/-- Forward SQL of the concrete migration `migC`. -/
def sqlC : String := "CREATE INDEX idx ON t(v)"

/-- Concrete migration used to evaluate the theorems. -/
def migA : Migration :=
  { id := "0001_a"
    name := "a"
    version := defaultVersion
    sql_content := sqlA
    rollback_sql := some rbA
    is_breaking := false
    requires_maintenance := false
    estimated_duration := 0
    dependencies := [] }

/-- Concrete migration used to evaluate the theorems. -/
def migB : Migration :=
  { migA with id := "0002_b", name := "b", sql_content := sqlB, rollback_sql := none }

/-- Concrete migration used to evaluate the theorems. -/
def migC : Migration :=
  { migA with id := "0003_c", name := "c", sql_content := sqlC, rollback_sql := none }

/-- Execution oracle under which exactly `migB` fails. -/
def execOkNotB : Migration → Bool := fun m => !(m.id == migB.id)

/-- Execution oracle under which every statement succeeds. -/
def allOk : Migration → Bool := fun _ => true

/-- A concrete owner token. -/
def tok1 : String := "apply_migrations_online:t0"

/-- A second concrete owner token. -/
def tok2 : String := "rollback_0001_a:t1"

/-- Content of a readable migration unit. -/
def contentA : String := "CREATE TABLE a(x INT)"

/-- Content of a readable migration unit with a rollback section. -/
def contentC : String := "CREATE TABLE c(x INT) -- ROLLBACK: DROP TABLE c"

/-- Error of an unreadable migration unit. -/
def readFailMsg : String := "unreadable"

/-- A concrete well-formed migration unit. -/
def fileA : MigrationFile := { stem := "0001_a", readText := Except.ok contentA }

/-- A concrete malformed (unreadable) migration unit. -/
def fileB : MigrationFile := { stem := "0002_b", readText := Except.error readFailMsg }

/-- A second concrete well-formed migration unit. -/
def fileC : MigrationFile := { stem := "0003_c", readText := Except.ok contentC }

section Lemmas

/-- The pending resolver returns nothing when every definition already
has a ledger row. -/
lemma getPending_nil_of_all_applied {allMigs : List Migration}
    {ledger : List LedgerRow}
    (h : ∀ m ∈ allMigs, isApplied ledger m.id = true) :
    getPendingMigrations allMigs ledger = [] := by
  unfold getPendingMigrations
  rw [List.filter_eq_nil_iff]
  intro m hm
  simp [h m hm]

/-- Every strategy, on success, returns the success result and appends
exactly the recorded row. -/
lemma executeStrategy_success_parts (strat : String)
    (execOk : Migration → Bool) (m : Migration) (ledger : List LedgerRow)
    (h : execOk m = true) :
    (executeStrategy strat execOk m ledger).1 = successResult m ∧
    (executeStrategy strat execOk m ledger).2.1 = ledger ++ [recordRow m] := by
  unfold executeStrategy executeDualWriteMigration executeMaintenanceMigration
    executeShadowTableMigration executeOnlineMigration
  split_ifs <;> simp_all

/-- Every strategy, on failure, returns the failure result and leaves
the ledger unchanged. -/
lemma executeStrategy_failure_parts (strat : String)
    (execOk : Migration → Bool) (m : Migration) (ledger : List LedgerRow)
    (h : execOk m = false) :
    (executeStrategy strat execOk m ledger).1 = failureResult m ∧
    (executeStrategy strat execOk m ledger).2.1 = ledger := by
  unfold executeStrategy executeDualWriteMigration executeMaintenanceMigration
    executeShadowTableMigration executeOnlineMigration
  split_ifs <;> simp_all

/-- The orchestrator loop on an all-successful pending list returns one
success result per migration and appends their rows in order. -/
lemma applyLoop_all_success (strat : String) (execOk : Migration → Bool)
    (ms : List Migration) : ∀ ledger : List LedgerRow,
    (∀ m ∈ ms, execOk m = true) →
    (applyLoop strat execOk ms ledger).1 = ms.map successResult ∧
    (applyLoop strat execOk ms ledger).2.1 = ledger ++ ms.map recordRow := by
  induction ms with
  | nil => intro ledger _; simp [applyLoop]
  | cons m rest ih =>
    intro ledger h
    have hm := h m (List.mem_cons_self m rest)
    have hs := executeStrategy_success_parts strat execOk m ledger hm
    have hrest := ih (ledger ++ [recordRow m])
      (fun x hx => h x (List.mem_cons_of_mem m hx))
    simp only [applyLoop, hs.1, hs.2]
    simp [hrest.1, hrest.2, successResult]

/-- The orchestrator loop stops at the first failing migration: one
success entry per earlier migration, one failure entry, nothing after,
and only the earlier rows appended. -/
lemma applyLoop_fail_fast (strat : String) (execOk : Migration → Bool)
    (bad : Migration) (post : List Migration) (hbad : execOk bad = false) :
    ∀ (pre : List Migration) (ledger : List LedgerRow),
    (∀ m ∈ pre, execOk m = true) →
    (applyLoop strat execOk (pre ++ bad :: post) ledger).1
      = pre.map successResult ++ [failureResult bad] ∧
    (applyLoop strat execOk (pre ++ bad :: post) ledger).2.1
      = ledger ++ pre.map recordRow := by
  intro pre
  induction pre with
  | nil =>
    intro ledger _
    have hf := executeStrategy_failure_parts strat execOk bad ledger hbad
    simp only [List.nil_append, applyLoop, hf.1, hf.2]
    simp [failureResult]
  | cons m rest ih =>
    intro ledger h
    have hm := h m (List.mem_cons_self m rest)
    have hs := executeStrategy_success_parts strat execOk m ledger hm
    have hrest := ih (ledger ++ [recordRow m])
      (fun x hx => h x (List.mem_cons_of_mem m hx))
    simp only [List.cons_append, applyLoop, hs.1, hs.2]
    simp [hrest.1, hrest.2, successResult]

/-- Dry-run report lines over a mapped pending list recover exactly the
pending ids. -/
lemma filterMap_wouldApply (ms : List Migration) :
    List.filterMap (wouldApplyId ∘ fun m => Event.wouldApply m.id) ms
      = ms.map Migration.id := by
  induction ms with
  | nil => rfl
  | cons m rest ih => simp [Function.comp, wouldApplyId, ih]

/-- A successful rollback call, fully evaluated. -/
lemma rollbackMigration_success_eq (ledger : List LedgerRow) (tok : String)
    (id : String) (row : LedgerRow) (r : String)
    (hfind : ledger.find? (fun x => x.id == id) = some row)
    (hrb : row.rollback_sql = some r) (hr : ¬ r = "") :
    rollbackMigration ledger none tok true true id =
      { res := Except.ok (okRollbackResult id)
        ledger := ledger.filter (fun x => !(x.id == id))
        lockStore := none
        events := [Event.lockAcquire, Event.ledgerRead, Event.ledgerRead,
          Event.execSQL r, Event.ledgerDelete id, Event.commit,
          Event.lockDelete] } := by
  unfold rollbackMigration
  simp only [hfind, hrb]
  simp [hr]

/-- A non-dry-run apply of one fresh dependency-free migration records
exactly its row. -/
lemma applyMigrations_single (m : Migration) (tok : String)
    (execOk : Migration → Bool) (hdep : m.dependencies = [])
    (hok : execOk m = true) :
    (applyMigrations [m] [] none tok onlineName false execOk).ledger
      = [recordRow m] := by
  have hpend : getPendingMigrations [m] [] = [m] := by
    simp [getPendingMigrations, isApplied, hdep]
  have hloop := applyLoop_all_success onlineName execOk [m] []
    (fun x hx => by simpa [List.mem_singleton.1 hx] using hok)
  simp [applyMigrations, strategyNames, hpend, hloop.2]

/-- The loader loop keeps exactly the units that parse, in order, and
logs one error-level line per unit that fails to load. -/
lemma loadLoop_spec (files : List MigrationFile) :
    (loadLoop files).1
      = files.filterMap (fun f => (parseMigrationFile f).toOption) ∧
    (loadLoop files).2
      = (files.filter (fun f => !(parseMigrationFile f).isOk)).map
          (fun f => Event.logError f.stem) := by
  induction files with
  | nil => simp [loadLoop]
  | cons f rest ih =>
    cases hp : parseMigrationFile f with
    | ok m =>
      simp [loadLoop, hp, Except.toOption, Except.isOk, Except.toBool, ih.1, ih.2]
    | error e =>
      simp [loadLoop, hp, Except.toOption, Except.isOk, Except.toBool, ih.1, ih.2]

end Lemmas

/-- C4: on the guaranteed-cleanup path of `migration_lock` the key is
deleted only when the stored value at release time is exactly the
releasing operation's own token; a holder whose lease expired and was
re-acquired by another owner never deletes that owner's lease; a caller
whose acquire failed never deletes the key. -/
theorem migrationLock_release_safety (store0 : Option String)
    (lockValue : String) (duringBody : Option String → Option String) :
    (Event.lockDelete ∈ (migrationLock store0 lockValue duringBody).2 →
      store0 = none ∧ duringBody (some lockValue) = some lockValue) ∧
    (∀ w, store0 = none → duringBody (some lockValue) = some w →
      ¬ w = lockValue →
      (migrationLock store0 lockValue duringBody).1 = some w ∧
      Event.lockDelete ∉ (migrationLock store0 lockValue duringBody).2) ∧
    (∀ v, store0 = some v →
      (migrationLock store0 lockValue duringBody).1 = some v ∧
      Event.lockDelete ∉ (migrationLock store0 lockValue duringBody).2) := by
  refine ⟨?_, ?_, ?_⟩
  · intro hmem
    cases store0 with
    | some v => simp [migrationLock] at hmem
    | none =>
      refine ⟨rfl, ?_⟩
      by_cases h : duringBody (some lockValue) = some lockValue
      · exact h
      · simp [migrationLock, h] at hmem
  · intro w h0 hw hne
    subst h0
    have hcond : ¬ duringBody (some lockValue) = some lockValue := by
      rw [hw]; simp [hne]
    simp [migrationLock, hcond, hw, hne]
  · intro v h0
    subst h0
    simp [migrationLock]

/-- Witness for `migrationLock_release_safety` at a concrete expired and
re-acquired store. -/
theorem migrationLock_release_safety_witness :
    (migrationLock none tok1 (fun _ => some tok2)).1 = some tok2 ∧
    Event.lockDelete ∉ (migrationLock none tok1 (fun _ => some tok2)).2 :=
  (migrationLock_release_safety none tok1 (fun _ => some tok2)).2.1 tok2
    rfl rfl (by decide)

/-- C6: a definition is in the resolver's pending set exactly when its id
is absent from the ledger and every declared dependency id is a ledger
key, and the pending set is a sublist of the source order (gating, not a
topological reorder). -/
theorem getPending_mem_iff (allMigs : List Migration)
    (ledger : List LedgerRow) (m : Migration) :
    (m ∈ getPendingMigrations allMigs ledger ↔
      m ∈ allMigs ∧ isApplied ledger m.id = false ∧
        ∀ d ∈ m.dependencies, isApplied ledger d = true) ∧
    (getPendingMigrations allMigs ledger).Sublist allMigs := by
  constructor
  · unfold getPendingMigrations
    simp [List.mem_filter, List.all_eq_true, Bool.not_eq_true', and_assoc]
  · exact List.filter_sublist _

/-- Witness for `getPending_mem_iff` at a concrete gated definition. -/
theorem getPending_mem_iff_witness :
    migB ∈ getPendingMigrations [migA, migB] [] ↔
      migB ∈ [migA, migB] ∧ isApplied [] migB.id = false ∧
        ∀ d ∈ migB.dependencies, isApplied [] d = true :=
  (getPending_mem_iff [migA, migB] [] migB).1

/-- C7: when every loaded definition already has a ledger row, apply is
a no-op — empty result, unchanged ledger and lock key, and the only
effect is the ledger read of the resolver. -/
theorem apply_noop_when_all_applied (allMigs : List Migration)
    (ledger : List LedgerRow) (lockStore : Option String)
    (tok strat : String) (dryRun : Bool) (execOk : Migration → Bool)
    (hstrat : strat ∈ strategyNames)
    (happ : ∀ m ∈ allMigs, isApplied ledger m.id = true) :
    (applyMigrations allMigs ledger lockStore tok strat dryRun execOk).results
      = Except.ok [] ∧
    (applyMigrations allMigs ledger lockStore tok strat dryRun execOk).ledger
      = ledger ∧
    (applyMigrations allMigs ledger lockStore tok strat dryRun execOk).lockStore
      = lockStore ∧
    (applyMigrations allMigs ledger lockStore tok strat dryRun execOk).events
      = [Event.ledgerRead] := by
  have hnil := getPending_nil_of_all_applied happ
  simp [applyMigrations, hstrat, hnil]

/-- Witness for `apply_noop_when_all_applied` on a fully applied ledger. -/
theorem apply_noop_when_all_applied_witness :
    onlineName ∈ strategyNames ∧
    ((applyMigrations [migA] [recordRow migA] none tok1 onlineName false
        allOk).results = Except.ok [] ∧
      (applyMigrations [migA] [recordRow migA] none tok1 onlineName false
        allOk).ledger = [recordRow migA] ∧
      (applyMigrations [migA] [recordRow migA] none tok1 onlineName false
        allOk).lockStore = none ∧
      (applyMigrations [migA] [recordRow migA] none tok1 onlineName false
        allOk).events = [Event.ledgerRead]) :=
  ⟨by decide,
    apply_noop_when_all_applied [migA] [recordRow migA] none tok1 onlineName
      false allOk (by decide) (by decide)⟩

/-- C5: a dry run leaves the database and the coordination store
untouched — empty result list, unchanged ledger and lock key, no
state-mutating event of any kind — and reports exactly the pending ids
as would-apply. -/
theorem apply_dry_run_pure (allMigs : List Migration)
    (ledger : List LedgerRow) (lockStore : Option String)
    (tok strat : String) (execOk : Migration → Bool)
    (hstrat : strat ∈ strategyNames) :
    (applyMigrations allMigs ledger lockStore tok strat true execOk).results
      = Except.ok [] ∧
    (applyMigrations allMigs ledger lockStore tok strat true execOk).ledger
      = ledger ∧
    (applyMigrations allMigs ledger lockStore tok strat true execOk).lockStore
      = lockStore ∧
    ((applyMigrations allMigs ledger lockStore tok strat true execOk).events.all
      fun e => !(mutatesState e)) = true ∧
    ((applyMigrations allMigs ledger lockStore tok strat true
        execOk).events.filterMap wouldApplyId)
      = (getPendingMigrations allMigs ledger).map Migration.id := by
  by_cases hemp : (getPendingMigrations allMigs ledger).isEmpty
  · have hnil : getPendingMigrations allMigs ledger = [] :=
      List.isEmpty_iff.1 hemp
    simp [applyMigrations, hstrat, hnil, mutatesState, wouldApplyId]
  · refine ⟨?_, ?_, ?_, ?_, ?_⟩ <;>
      simp [applyMigrations, hstrat, hemp, mutatesState, wouldApplyId,
        filterMap_wouldApply]

/-- Witness for `apply_dry_run_pure` with three pending migrations. -/
theorem apply_dry_run_pure_witness :
    onlineName ∈ strategyNames ∧
    ((applyMigrations [migA, migB, migC] [] none tok1 onlineName true
        allOk).events.filterMap wouldApplyId)
      = (getPendingMigrations [migA, migB, migC] []).map Migration.id :=
  ⟨by decide,
    (apply_dry_run_pure [migA, migB, migC] [] none tok1 onlineName allOk
      (by decide)).2.2.2.2⟩

/-- C2 counterexample: on a concrete call whose id has no ledger row the
lock is still acquired — it is the very first event of the trace — and
the NotApplied failure is raised only afterwards, refuting that the
precondition failures are raised before any lock is acquired. -/
theorem rollback_precheck_after_lock_cex :
    (rollbackMigration [] none tok2 true true migA.id).res
      = Except.error (notAppliedMsg migA.id) ∧
    (rollbackMigration [] none tok2 true true migA.id).events.head?
      = some Event.lockAcquire ∧
    Event.lockAcquire ∈ (rollbackMigration [] none tok2 true true migA.id).events := by
  refine ⟨rfl, rfl, ?_⟩
  decide

/-- C2 (amended): both rollback preconditions are checked inside the
lock — the lock is acquired first — and before any rollback SQL is
executed or any ledger row deleted: an id absent from the ledger raises
NotApplied with the state unchanged and the lock released, and a NULL or
empty stored rollback SQL is surfaced as a failed result (caught
exception) with the state unchanged and the lock released. -/
theorem rollback_prechecks_inside_lock (ledger : List LedgerRow)
    (tok : String) (rbOk dlOk : Bool) (id : String) :
    (ledger.find? (fun row => row.id == id) = none →
      (rollbackMigration ledger none tok rbOk dlOk id).res
        = Except.error (notAppliedMsg id) ∧
      (rollbackMigration ledger none tok rbOk dlOk id).ledger = ledger ∧
      (rollbackMigration ledger none tok rbOk dlOk id).lockStore = none ∧
      (rollbackMigration ledger none tok rbOk dlOk id).events
        = [Event.lockAcquire, Event.ledgerRead, Event.lockDelete]) ∧
    (∀ row, ledger.find? (fun x => x.id == id) = some row →
      emptyRollback row.rollback_sql = true →
      (rollbackMigration ledger none tok rbOk dlOk id).res
        = Except.ok (noRollbackResult id) ∧
      (rollbackMigration ledger none tok rbOk dlOk id).ledger = ledger ∧
      (rollbackMigration ledger none tok rbOk dlOk id).lockStore = none ∧
      (rollbackMigration ledger none tok rbOk dlOk id).events
        = [Event.lockAcquire, Event.ledgerRead, Event.ledgerRead,
           Event.lockDelete]) := by
  constructor
  · intro hfind
    unfold rollbackMigration
    simp [hfind]
  · intro row hfind hempty
    unfold rollbackMigration
    simp only [hfind]
    cases hrb : row.rollback_sql with
    | none => simp
    | some s =>
      rw [hrb] at hempty
      have hs : s = "" := by simpa [emptyRollback] using hempty
      simp [hs]

/-- Witness for `rollback_prechecks_inside_lock` at a concrete empty
ledger. -/
theorem rollback_prechecks_inside_lock_witness :
    ([] : List LedgerRow).find? (fun row => row.id == migB.id) = none ∧
    (rollbackMigration [] none tok1 true true migB.id).events
      = [Event.lockAcquire, Event.ledgerRead, Event.lockDelete] :=
  ⟨by decide,
    ((rollback_prechecks_inside_lock [] tok1 true true migB.id).1
      (by decide)).2.2.2⟩

/-- C10: when the stored rollback SQL or the ledger-row delete raises,
the whole rollback transaction is rolled back — the ledger row is still
present — and the returned result has `success = false` but
`rollback_executed = true`. -/
theorem rollback_failure_state_unchanged (ledger : List LedgerRow)
    (tok id : String) (row : LedgerRow) (r : String) (rbOk dlOk : Bool)
    (hfind : ledger.find? (fun x => x.id == id) = some row)
    (hrb : row.rollback_sql = some r) (hr : ¬ r = "")
    (hfail : rbOk = false ∨ dlOk = false) :
    (rollbackMigration ledger none tok rbOk dlOk id).res
      = Except.ok (failedRollbackResult id) ∧
    (failedRollbackResult id).success = false ∧
    (failedRollbackResult id).rollback_executed = true ∧
    (rollbackMigration ledger none tok rbOk dlOk id).ledger = ledger ∧
    isApplied (rollbackMigration ledger none tok rbOk dlOk id).ledger id
      = true ∧
    Event.txRollback ∈ (rollbackMigration ledger none tok rbOk dlOk id).events := by
  have happ : isApplied ledger id = true := by
    have hmem := List.mem_of_find?_eq_some hfind
    have hpred := List.find?_some hfind
    exact List.any_eq_true.2 ⟨row, hmem, hpred⟩
  unfold rollbackMigration
  simp only [hfind, hrb]
  rcases hfail with hf | hf
  · subst hf
    simp [hr, happ, failedRollbackResult]
  · subst hf
    by_cases hrbOk : rbOk
    · simp [hr, hrbOk, happ, failedRollbackResult]
    · simp [hr, hrbOk, happ, failedRollbackResult]

/-- Witness for `rollback_failure_state_unchanged` at a concrete ledger
whose rollback SQL fails. -/
theorem rollback_failure_state_unchanged_witness :
    [recordRow migA].find? (fun x => x.id == migA.id) = some (recordRow migA) ∧
    (rollbackMigration [recordRow migA] none tok2 false true migA.id).ledger
      = [recordRow migA] :=
  ⟨by decide,
    (rollback_failure_state_unchanged [recordRow migA] tok2 migA.id
      (recordRow migA) rbA false true (by decide) (by decide) (by decide)
      (Or.inl rfl)).2.2.2.1⟩

/-- C3: applying a migration and then rolling it back executes exactly
the rollback SQL text stored in the ledger at apply time (the rollback
call reads only the ledger, so later mutation of the on-disk source is
invisible), deletes the ledger row in the same transaction (the delete
precedes the single commit), and returns a successful result with
`rollback_executed = true`. -/
theorem rollback_uses_stored_sql (m : Migration) (r tok tokR : String)
    (execOk : Migration → Bool) (hdep : m.dependencies = [])
    (hrb : m.rollback_sql = some r) (hr : ¬ r = "") (hok : execOk m = true) :
    (applyThenRollback m tok tokR execOk).events
      = [Event.lockAcquire, Event.ledgerRead, Event.ledgerRead,
         Event.execSQL r, Event.ledgerDelete m.id, Event.commit,
         Event.lockDelete] ∧
    execedStmts (applyThenRollback m tok tokR execOk).events = [r] ∧
    (applyThenRollback m tok tokR execOk).res
      = Except.ok (okRollbackResult m.id) ∧
    isApplied (applyThenRollback m tok tokR execOk).ledger m.id = false := by
  have h1 := applyMigrations_single m tok execOk hdep hok
  have hfind : [recordRow m].find? (fun x => x.id == m.id)
      = some (recordRow m) := by
    simp [List.find?, recordRow]
  have h2 := rollbackMigration_success_eq [recordRow m] tokR m.id
    (recordRow m) r hfind (by simp [recordRow, hrb]) hr
  unfold applyThenRollback
  rw [h1, h2]
  refine ⟨rfl, by simp [execedStmts], rfl, ?_⟩
  simp [isApplied, recordRow]

/-- Witness for `rollback_uses_stored_sql` at the concrete migration
`migA`. -/
theorem rollback_uses_stored_sql_witness :
    migA.rollback_sql = some rbA ∧
    execedStmts (applyThenRollback migA tok1 tok2 allOk).events = [rbA] :=
  ⟨by decide,
    (rollback_uses_stored_sql migA rbA tok1 tok2 allOk (by decide)
      (by decide) (by decide) (by decide)).2.1⟩

/-- C1: on a non-dry-run apply whose pending list is `pre ++ bad :: post`
with every migration of `pre` succeeding and `bad` failing, the returned
list is exactly one success entry per element of `pre` followed by one
failure entry for `bad` and nothing for `post`; the final ledger is the
initial ledger plus exactly the rows of `pre` — the rows applied before
the failure remain (no automatic rollback of the run) and no migration
after the failure acquires a row. -/
theorem apply_fail_fast (allMigs : List Migration) (ledger : List LedgerRow)
    (tok strat : String) (execOk : Migration → Bool)
    (pre : List Migration) (bad : Migration) (post : List Migration)
    (hstrat : strat ∈ strategyNames)
    (hpend : getPendingMigrations allMigs ledger = pre ++ bad :: post)
    (hpre : ∀ m ∈ pre, execOk m = true)
    (hbad : execOk bad = false) :
    (applyMigrations allMigs ledger none tok strat false execOk).results
      = Except.ok (pre.map successResult ++ [failureResult bad]) ∧
    (applyMigrations allMigs ledger none tok strat false execOk).ledger
      = ledger ++ pre.map recordRow ∧
    (∀ m ∈ pre, isApplied
      (applyMigrations allMigs ledger none tok strat false execOk).ledger
      m.id = true) ∧
    (∀ m ∈ post, m.id ∉ pre.map Migration.id →
      isApplied
        (applyMigrations allMigs ledger none tok strat false execOk).ledger
        m.id = false) := by
  have hloop := applyLoop_fail_fast strat execOk bad post hbad pre ledger hpre
  have hne2 : (pre ++ bad :: post).isEmpty = false := by cases pre <;> rfl
  have hres : (applyMigrations allMigs ledger none tok strat false
      execOk).results
      = Except.ok ((applyLoop strat execOk (pre ++ bad :: post) ledger).1) := by
    simp [applyMigrations, hstrat, hpend, hne2]
  have hled : (applyMigrations allMigs ledger none tok strat false
      execOk).ledger
      = (applyLoop strat execOk (pre ++ bad :: post) ledger).2.1 := by
    simp [applyMigrations, hstrat, hpend, hne2]
  refine ⟨?_, ?_, ?_, ?_⟩
  · rw [hres, hloop.1]
  · rw [hled, hloop.2]
  · intro m hm
    rw [hled, hloop.2]
    refine List.any_eq_true.2 ⟨recordRow m, ?_, ?_⟩
    · exact List.mem_append_right _ (List.mem_map_of_mem _ hm)
    · simp [recordRow]
  · intro m hmpost hmnot
    have hmpend : m ∈ getPendingMigrations allMigs ledger := by
      rw [hpend]
      exact List.mem_append_right _ (List.mem_cons_of_mem bad hmpost)
    have hnotapp : isApplied ledger m.id = false := by
      unfold getPendingMigrations at hmpend
      have h2 := (List.mem_filter.1 hmpend).2
      simp only [Bool.and_eq_true, Bool.not_eq_true'] at h2
      exact h2.1
    rw [hled, hloop.2]
    simp only [isApplied, List.any_append, Bool.or_eq_false_iff]
    constructor
    · exact hnotapp
    · rw [List.any_eq_false]
      intro x hx
      rcases List.mem_map.1 hx with ⟨y, hy, rfl⟩
      have hyid : (recordRow y).id = y.id := rfl
      rw [hyid]
      intro hid
      have hid2 : y.id = m.id := by simpa using hid
      refine hmnot ?_
      rw [← hid2]
      exact List.mem_map_of_mem Migration.id hy

/-- Witness for `apply_fail_fast` on the concrete run where `migB`
fails between `migA` and `migC`. -/
theorem apply_fail_fast_witness :
    execOkNotB migB = false ∧
    (applyMigrations [migA, migB, migC] [] none tok1 onlineName false
        execOkNotB).results
      = Except.ok ([migA].map successResult ++ [failureResult migB]) :=
  ⟨by decide,
    (apply_fail_fast [migA, migB, migC] [] tok1 onlineName execOkNotB
      [migA] migB [migC] (by decide) (by decide) (by decide) (by decide)).1⟩

/-- A trace without any ledger write trivially satisfies the ordering
discipline. -/
lemma wace_of_no_write (evs : List Event)
    (h : ∀ i, Event.ledgerWrite i ∉ evs) :
    writeAfterCommittedExec evs := by
  intro k i hk
  exact absurd (List.getElem?_mem hk) (h i)

/-- A trace of the shape body-then-commit-then-record satisfies the
ordering discipline when the body executes some SQL and writes no ledger
row itself. -/
lemma wace_shape (pre : List Event) (i0 s0 : String)
    (hex : Event.execSQL s0 ∈ pre)
    (hnw : ∀ i, Event.ledgerWrite i ∉ pre) :
    writeAfterCommittedExec
      (pre ++ [Event.commit, Event.ledgerWrite i0, Event.commit]) := by
  intro k i hk
  have hkge : pre.length ≤ k := by
    by_contra hlt
    push_neg at hlt
    rw [List.getElem?_append_left hlt] at hk
    exact hnw i (List.getElem?_mem hk)
  rw [List.getElem?_append_right hkge] at hk
  obtain ⟨d, hdd⟩ : ∃ d, k - pre.length = d := ⟨_, rfl⟩
  rw [hdd] at hk
  have hdlt : d < 3 := by
    by_contra hge
    push_neg at hge
    rw [List.getElem?_eq_none (by simpa using hge)] at hk
    exact Option.noConfusion hk
  have hd1 : d = 1 := by
    interval_cases d
    · simp at hk
    · rfl
    · simp at hk
  have hkeq : k = pre.length + 1 := by omega
  refine ⟨pre.length, by omega, ?_, ?_⟩
  · rw [List.getElem?_append_right (le_refl pre.length)]
    simp
  · rcases List.get?_of_mem hex with ⟨l, hl⟩
    rw [List.get?_eq_getElem?] at hl
    have hllt : l < pre.length := (List.getElem?_eq_some.mp hl).1
    refine ⟨l, s0, hllt, ?_⟩
    rw [List.getElem?_append_left hllt]
    exact hl

/-- The online strategy trace obeys the ordering discipline. -/
lemma wace_online (execOk : Migration → Bool) (m : Migration)
    (ledger : List LedgerRow) :
    writeAfterCommittedExec (executeOnlineMigration execOk m ledger).2.2 := by
  unfold executeOnlineMigration
  by_cases h : execOk m
  · simp only [h, if_true]
    exact wace_shape [Event.execSQL m.sql_content] m.id m.sql_content
      (by simp) (by simp)
  · simp only [h]
    simp only [Bool.false_eq_true, if_false]
    exact wace_of_no_write _ (by simp)

/-- The shadow-table strategy trace obeys the ordering discipline. -/
lemma wace_shadow (execOk : Migration → Bool) (m : Migration)
    (ledger : List LedgerRow) :
    writeAfterCommittedExec
      (executeShadowTableMigration execOk m ledger).2.2 := by
  unfold executeShadowTableMigration
  by_cases h : execOk m
  · by_cases ha : containsSub m.sql_content.toUpper alterTableKw = true
    · simp only [h, if_true, ha]
      exact wace_shape
        (Event.execSQL (m.sql_content.replace createTableKw shadowCreateKw)
          :: [Event.execSQL (insertShadowStmt (extractTableName m.sql_content)),
              Event.execSQL beginStmt,
              Event.execSQL (dropStmt (extractTableName m.sql_content)),
              Event.execSQL (renameStmt (extractTableName m.sql_content)),
              Event.execSQL commitStmt])
        m.id (m.sql_content.replace createTableKw shadowCreateKw)
        (by simp) (by simp)
    · simp only [h, if_true, ha]
      simp only [Bool.false_eq_true, if_false]
      exact wace_shape
        [Event.execSQL (m.sql_content.replace createTableKw shadowCreateKw)]
        m.id (m.sql_content.replace createTableKw shadowCreateKw)
        (by simp) (by simp)
  · simp only [h]
    simp only [Bool.false_eq_true, if_false]
    exact wace_of_no_write _ (by simp)

/-- The maintenance strategy trace obeys the ordering discipline. -/
lemma wace_maintenance (execOk : Migration → Bool) (m : Migration)
    (ledger : List LedgerRow) :
    writeAfterCommittedExec
      (executeMaintenanceMigration execOk m ledger).2.2 := by
  unfold executeMaintenanceMigration executeOnlineMigration
  by_cases h : execOk m
  · simp only [h, if_true]
    exact wace_shape
      [Event.redisSet maintenanceKey, Event.execSQL m.sql_content]
      m.id m.sql_content (by simp) (by simp)
  · simp only [h]
    simp only [Bool.false_eq_true, if_false]
    exact wace_of_no_write _ (by simp)

/-- C8: for every registered strategy and every migration, the strategy's
effect trace never shows the ledger insert before a commit that itself
follows the execution of the migration's SQL — a recorded migration is
never only partially applied. -/
theorem strategy_ledger_write_after_commit (strat : String)
    (execOk : Migration → Bool) (m : Migration) (ledger : List LedgerRow)
    (hstrat : strat ∈ strategyNames) :
    writeAfterCommittedExec (executeStrategy strat execOk m ledger).2.2 := by
  unfold executeStrategy executeDualWriteMigration
  split_ifs
  · exact wace_online execOk m ledger
  · exact wace_shadow execOk m ledger
  · exact wace_online execOk m ledger
  · exact wace_maintenance execOk m ledger

/-- Witness for `strategy_ledger_write_after_commit` at the online
strategy on a concrete migration. -/
theorem strategy_ledger_write_after_commit_witness :
    onlineName ∈ strategyNames ∧
    writeAfterCommittedExec (executeStrategy onlineName allOk migA []).2.2 :=
  ⟨by decide,
    strategy_ledger_write_after_commit onlineName allOk migA [] (by decide)⟩

/-- C9 counterexample: loading a concrete directory whose middle unit is
malformed logs the skip at error level — the trace holds no
warning-level line at all — refuting the claimed logged warning; the two
well-formed units around it are still both loaded. -/
theorem loader_malformed_logs_error_not_warning_cex :
    (loadMigrations (some [fileA, fileB, fileC])).2
      = [Event.logError fileB.stem] ∧
    hasWarning (loadMigrations (some [fileA, fileB, fileC])).2 = false ∧
    (loadMigrations (some [fileA, fileB, fileC])).1.length = 2 := by
  refine ⟨rfl, rfl, rfl⟩

/-- C9 (amended): a malformed unit is skipped with an error-level log
line (not a warning) and never aborts loading — the returned list holds
exactly the well-formed units, in order, regardless of how many
malformed units precede or follow them — and a missing source location
yields an empty list with a warning. -/
theorem loader_skips_malformed (files : List MigrationFile) :
    (loadMigrations (some files)).1
      = files.filterMap (fun f => (parseMigrationFile f).toOption) ∧
    (loadMigrations (some files)).2
      = (files.filter (fun f => !(parseMigrationFile f).isOk)).map
          (fun f => Event.logError f.stem) ∧
    loadMigrations none = ([], [Event.logWarning missingDirMsg]) :=
  ⟨(loadLoop_spec files).1, (loadLoop_spec files).2, rfl⟩
